import Mathlib

/-!
Shallow embedding of src/interrupt_handling.c (an interrupt-masking and
critical-section layer for ARM Cortex-M firmware), together with proofs and
refutations of the behavioural properties stated in the accompanying design
document.

Modelling conventions:
* Machine words (uint32_t register words, the 8-bit BASEPRI register) are
  natural numbers; writes that truncate carry an explicit mod.
* The C cast (uint8_t) is an explicit mod 256 and the cast (int16_t) is an
  explicit two's-complement wrap.
* The 32-bit "complement then and" idiom (~x) & y of the source is translated
  as andNot y x (the bits of y not in x), which agrees with it on all uint32
  words; andNot is proved equal to Nat.ldiff below.
* The target configuration is the one selected by the stm32f4xx header:
  __CORTEX_M = 4 (so the BASEPRI branch of every #if is compiled in) and
  __NVIC_PRIO_BITS = 4.  The #else branches that matter to the claims are
  embedded separately under a noBasepri suffix.
-/

namespace InterruptHandling

/-- NVIC priority bits of the target part (stm32f4xx CMSIS value). -/
def NVIC_PRIO_BITS : Nat := 4

/-- BASEPRI_START_BIT of the source: 8 - __NVIC_PRIO_BITS. -/
def BASEPRI_START_BIT : Nat := 8 - NVIC_PRIO_BITS

/-- INTERRUPT_LOWEST_PRIORITY from interrupt_handling.h (Cortex-M >= 3 branch). -/
def INTERRUPT_LOWEST_PRIORITY : Nat := 7

/-- INTERRUPT_HIGHEST_PRIORITY from interrupt_handling.h. -/
def INTERRUPT_HIGHEST_PRIORITY : Nat := 0

/-- MAX_NVIC_REG_WORDS from interrupt_handling.h. -/
abbrev MAX_NVIC_REG_WORDS : Nat := 8

/-- C cast to int16_t: two's-complement wrap into [-32768, 32768). -/
def toInt16 (n : Int) : Int := (n + 32768) % 65536 - 32768

/-- IS_EXCEPTION_NUM macro: ((int16_t) n >= -16) && ((int16_t) n < 0). -/
def IS_EXCEPTION_NUM (n : Int) : Bool := decide (-16 ≤ toInt16 n ∧ toInt16 n < 0)

/-- IS_INTERRUPT_NUM macro: ((int16_t) n >= 0) && ((int16_t) n < 0xF0). -/
def IS_INTERRUPT_NUM (n : Int) : Bool := decide (0 ≤ toInt16 n ∧ toInt16 n < 0xF0)

/-- IS_IRQn macro: interrupt or exception number. -/
def IS_IRQn (n : Int) : Bool := IS_INTERRUPT_NUM n || IS_EXCEPTION_NUM n

/-- IS_INT_LVL_VALID macro: HIGHEST < level && level <= LOWEST. -/
def IS_INT_LVL_VALID (intLevel : Nat) : Bool :=
  decide (INTERRUPT_HIGHEST_PRIORITY < intLevel ∧ intLevel ≤ INTERRUPT_LOWEST_PRIORITY)

/-- NVIC_Mask_t: a fixed array of MAX_NVIC_REG_WORDS uint32 words, one bit per
interrupt line. -/
abbrev NVIC_Mask_t := Fin MAX_NVIC_REG_WORDS → Nat

/-- The all-zero NVIC mask. -/
def zeroMask : NVIC_Mask_t := fun _ => 0

/-- Translation of the C and-not idiom x & ~y on machine words, written in a
form the kernel can evaluate: subtracting x &&& y from x removes exactly the
bits x shares with y.  Its bit-level characterization (equality with
Nat.ldiff) is proved below. -/
def andNot (x y : Nat) : Nat := x - (x &&& y)

/-- Word index of a line inside an NVIC mask; the source computes
(uint8_t) irqNum >> 5. -/
def wordIdx (u : Nat) : Fin MAX_NVIC_REG_WORDS :=
  ⟨(u % 256) >>> 5, by
    have h : u % 256 < 256 := Nat.mod_lt _ (by norm_num)
    show (u % 256) >>> 5 < 8
    rw [Nat.shiftRight_eq_div_pow]
    omega⟩

/-- NVIC_SetSpecificInterruptInAMask: set the bit of irqNum in the mask;
no effect unless irqNum is an interrupt number.
Source: mask->reg[(uint8_t) irqNum >> 5] |= 1UL << ((uint8_t) irqNum & 0x1F). -/
def NVIC_SetSpecificInterruptInAMask (irqNum : Int) (mask : NVIC_Mask_t) : NVIC_Mask_t :=
  if IS_INTERRUPT_NUM irqNum then
    let u := irqNum.toNat % 256
    fun j => if j = wordIdx u then mask (wordIdx u) ||| (1 <<< (u &&& 0x1F)) else mask j
  else mask

/-- NVIC_ClearSpecificInterruptInAMask: clear the bit of irqNum in the mask;
no effect unless irqNum is an interrupt number.
Source: mask->reg[(uint8_t) irqNum >> 5] &= ~(1UL << ((uint8_t) irqNum & 0x1F)). -/
def NVIC_ClearSpecificInterruptInAMask (irqNum : Int) (mask : NVIC_Mask_t) : NVIC_Mask_t :=
  if IS_INTERRUPT_NUM irqNum then
    let u := irqNum.toNat % 256
    fun j => if j = wordIdx u then andNot (mask (wordIdx u)) (1 <<< (u &&& 0x1F)) else mask j
  else mask

/-- Modelled from the spec: the platform interrupt controller (spec section 6)
exposes a clear-enable register bank (NVIC->ICER).  Writing a mask word clears
exactly the named enable bits (write-one-to-clear); the embedding keeps a
single live enable set and a write through ICER removes the written bits. -/
def writeICER (v iser : NVIC_Mask_t) : NVIC_Mask_t := fun i => andNot (iser i) (v i)

/-- Modelled from the spec: the platform set-enable register bank (NVIC->ISER,
spec section 6).  Writing a mask word sets exactly the named enable bits. -/
def writeISER (v iser : NVIC_Mask_t) : NVIC_Mask_t := fun i => iser i ||| v i

/-- Modelled from the spec: the enable-query read (spec section 6).  Reading
the controller's register bank (ISER or ICER) returns the live enable set. -/
def readEnableReg (iser : NVIC_Mask_t) : NVIC_Mask_t := iser

/-- NVIC_DisableSpecificInterrupts: block write of the disable mask to ICER
(done inside a full critical section in the source; the PRIMASK bracketing
does not touch the enable register). -/
def NVIC_DisableSpecificInterrupts (disable iser : NVIC_Mask_t) : NVIC_Mask_t :=
  writeICER disable iser

/-- NVIC_EnableSpecificInterrupts: block write of the enable mask to ISER. -/
def NVIC_EnableSpecificInterrupts (enable iser : NVIC_Mask_t) : NVIC_Mask_t :=
  writeISER enable iser

/-- NVIC_EnterSpecificInterruptDisabledSection: snapshot the live enable set
through the ICER bank into nvicState, then write the disable mask to ICER.
Returns (the saved snapshot, the new live enable set). -/
def NVIC_EnterSpecificInterruptDisabledSection (disable iser : NVIC_Mask_t) :
    NVIC_Mask_t × NVIC_Mask_t :=
  (readEnableReg iser, writeICER disable iser)

/-- NVIC_ExitSpecificInterruptDisabledSection: the source forwards the saved
mask to NVIC_DisableSpecificInterrupts. -/
def NVIC_ExitSpecificInterruptDisabledSection (disable iser : NVIC_Mask_t) : NVIC_Mask_t :=
  NVIC_DisableSpecificInterrupts disable iser

/-- Processor and interrupt-controller state visible to this layer.
primask is the 1-bit full-mask register, basepri the 8-bit threshold register,
basePriLevel the process-wide configured threshold (static int8_t in the
source), iser the live NVIC enable set, activeIrq the VECTACTIVE field of
SCB->ICSR, and prio the per-line priority accessor (NVIC_GetPriority of the
platform layer, an abstract read-only map here). -/
structure CpuState where
  primask : Bool
  basepri : Nat
  basePriLevel : Int
  iser : NVIC_Mask_t
  activeIrq : Nat
  prio : Int → Nat

/-- CMSIS intrinsic: read PRIMASK (0 or 1). -/
def get_PRIMASK (s : CpuState) : Nat := if s.primask then 1 else 0

/-- CMSIS intrinsic: set PRIMASK. -/
def disable_irq (s : CpuState) : CpuState := { s with primask := true }

/-- CMSIS intrinsic: clear PRIMASK. -/
def enable_irq (s : CpuState) : CpuState := { s with primask := false }

/-- CMSIS intrinsic: read the BASEPRI register. -/
def get_BASEPRI (s : CpuState) : Nat := s.basepri

/-- CMSIS intrinsic: write the 8-bit BASEPRI register (value truncated to the
register width). -/
def set_BASEPRI (v : Nat) (s : CpuState) : CpuState := { s with basepri := v % 256 }

/-- Value of the C expression (uint32_t)(basePriLevel << BASEPRI_START_BIT):
the int8 level is shifted in int arithmetic, then converted to uint32. -/
def basePriShifted (lvl : Int) : Nat := ((lvl * 2 ^ BASEPRI_START_BIT) % 2 ^ 32).toNat

/-- Synchronization and register-write events emitted by the trigger
operations, used to state the required unmask / barrier / remask ordering. -/
inductive Ev where
  | unmaskAll : Ev
  | maskAll : Ev
  | isb : Ev
  | setBasepri (v : Nat) : Ev
  | iserWrite (v : NVIC_Mask_t) : Ev
  | icerWrite (v : NVIC_Mask_t) : Ev
deriving DecidableEq

/-- PRIMASK_EnterCriticalSection: save PRIMASK, then disable interrupts.
Returns (saved irqState, new state). -/
def PRIMASK_EnterCriticalSection (s : CpuState) : Nat × CpuState :=
  (get_PRIMASK s, disable_irq s)

/-- PRIMASK_ExitCriticalSection: re-enable interrupts only if the saved state
was 0 (previously unmasked). -/
def PRIMASK_ExitCriticalSection (irqState : Nat) (s : CpuState) : CpuState :=
  if irqState = 0 then enable_irq s else s

/-- PRIMASK_TriggerPendingInterrupts: if PRIMASK is set, transiently enable
interrupts, issue an ISB, then disable again; otherwise do nothing. -/
def PRIMASK_TriggerPendingInterrupts (s : CpuState) : CpuState × List Ev :=
  if get_PRIMASK s &&& 1 ≠ 0 then
    (disable_irq (enable_irq s), [Ev.unmaskAll, Ev.isb, Ev.maskAll])
  else (s, [])

/-- BASEPRI_SetPriorityLevelThreshold (Cortex-M >= 3 branch): validate the
level and store it in the static basePriLevel; reject without side effect. -/
def BASEPRI_SetPriorityLevelThreshold (inputBasePriLevel : Nat) (s : CpuState) :
    Bool × CpuState :=
  if IS_INT_LVL_VALID inputBasePriLevel then
    (true, { s with basePriLevel := (inputBasePriLevel : Int) })
  else (false, s)

/-- BASEPRI_SetPriorityLevelThreshold in the __CORTEX_M < 3 configuration:
the whole validation body is compiled out, so the call always reports failure
and changes nothing. -/
def BASEPRI_SetPriorityLevelThreshold_noBasepri (inputBasePriLevel : Nat) (s : CpuState) :
    Bool × CpuState :=
  (false, s)

/-- BASEPRI_GetPriorityLevelThreshold: the current configured level. -/
def BASEPRI_GetPriorityLevelThreshold (s : CpuState) : Int := s.basePriLevel

/-- Initial value of the static basePriLevel (Cortex-M >= 3 branch). -/
def initBasePriLevel : Int := 3

/-- Sentinel initial value of basePriLevel on hardware without BASEPRI. -/
def initBasePriLevel_noBasepri : Int := -1

/-- Run a list of threshold-set requests through the validated setter. -/
def runThresholdRequests (lvls : List Nat) (s : CpuState) : CpuState :=
  lvls.foldl (fun t l => (BASEPRI_SetPriorityLevelThreshold l t).2) s

/-- BASEPRI_EnterInterruptsDisabledByThresholdSection: save BASEPRI, then
write the configured level shifted into the priority field. -/
def BASEPRI_EnterInterruptsDisabledByThresholdSection (s : CpuState) : Nat × CpuState :=
  (get_BASEPRI s, set_BASEPRI (basePriShifted s.basePriLevel) s)

/-- BASEPRI_ExitInterruptsDisabledByThresholdSection: restore the raw saved
register value. -/
def BASEPRI_ExitInterruptsDisabledByThresholdSection (irqState : Nat) (s : CpuState) :
    CpuState :=
  set_BASEPRI irqState s

/-- BASEPRI_TriggerPendingInterruptsByThreshold: if BASEPRI is at or beyond
the configured cutoff, transiently write 0, issue an ISB, then restore the
saved raw value; otherwise do nothing. -/
def BASEPRI_TriggerPendingInterruptsByThreshold (s : CpuState) : CpuState × List Ev :=
  let irqState := get_BASEPRI s
  if basePriShifted s.basePriLevel ≤ irqState then
    (set_BASEPRI irqState (set_BASEPRI 0 s), [Ev.setBasepri 0, Ev.isb, Ev.setBasepri irqState])
  else (s, [])

/-- Loop of NVIC_TriggerSpecificPendingInterrupts.  The C loop header is
for (size_t i; i < MAX_NVIC_REG_WORDS; i++): the index i is read
uninitialized (undefined behaviour), so the embedding takes the start value
of i as a parameter.  Per word: nvicMask &= enable, then
nvicMask = (~nvicMask) & enable, recording whether any word is non-zero.
The fuel argument only drives structural recursion; MAX_NVIC_REG_WORDS
iterations never exhaust it for any start index. -/
def triggerMaskLoop (enable : NVIC_Mask_t) :
    Nat → Nat → NVIC_Mask_t → Bool → NVIC_Mask_t × Bool
  | 0, _, m, st => (m, st)
  | fuel + 1, i, m, st =>
    if h : i < MAX_NVIC_REG_WORDS then
      let v := andNot (enable ⟨i, h⟩) (m ⟨i, h⟩ &&& enable ⟨i, h⟩)
      triggerMaskLoop enable fuel (i + 1) (fun j => if j = ⟨i, h⟩ then v else m j)
        (if v ≠ 0 then true else st)
    else (m, st)

/-- NVIC_TriggerSpecificPendingInterrupts: snapshot the live enable set,
compute per word the target lines currently disabled, and if any exist,
write that pulse mask to ISER, issue an ISB, then write it to ICER.
iStart is the (uninitialized in the source) start value of the loop index. -/
def NVIC_TriggerSpecificPendingInterrupts (iStart : Nat) (enable iser : NVIC_Mask_t) :
    NVIC_Mask_t × List Ev :=
  let r := triggerMaskLoop enable MAX_NVIC_REG_WORDS iStart (readEnableReg iser) false
  if r.2 then
    (writeICER r.1 (writeISER r.1 iser), [Ev.iserWrite r.1, Ev.isb, Ev.icerWrite r.1])
  else (iser, [])

/-- Pulse set computed by the trigger loop from start index 0: per word, the
lines of the target mask that are currently disabled (target and-not
currently-enabled). -/
def triggerPulse (enable iser : NVIC_Mask_t) : NVIC_Mask_t :=
  fun j => andNot (enable j) (iser j &&& enable j)

/-- Loop of NVIC_IsNvicIserMaskDisabled.  The C loop header is again
for (size_t i; i < MAX_NVIC_REG_WORDS; i++) with i read uninitialized, so
the start value of i is a parameter; returns false as soon as some word of
the query mask overlaps the live enable set. -/
def iserLoopCheck (mask nvic : NVIC_Mask_t) : Nat → Nat → Bool
  | 0, _ => true
  | fuel + 1, i =>
    if h : i < MAX_NVIC_REG_WORDS then
      if mask ⟨i, h⟩ &&& nvic ⟨i, h⟩ ≠ 0 then false
      else iserLoopCheck mask nvic fuel (i + 1)
    else true

/-- NVIC_IsNvicIserMaskDisabled: true iff no bit of the query mask is set in
the live enable set (given the intended loop start 0). -/
def NVIC_IsNvicIserMaskDisabled (iStart : Nat) (mask iser : NVIC_Mask_t) : Bool :=
  iserLoopCheck mask (readEnableReg iser) MAX_NVIC_REG_WORDS iStart

/-- NVIC_IsIRQnDisabled: for an interrupt number, test the corresponding
enable bit of the live enable set; any other argument reports disabled. -/
def NVIC_IsIRQnDisabled (iser : NVIC_Mask_t) (irqNum : Int) : Bool :=
  if IS_INTERRUPT_NUM irqNum then
    let u := irqNum.toNat % 256
    decide (iser (wordIdx u) &&& 1 <<< (u &&& 0x1F) = 0)
  else true

/-- IRQ_AreAllIRQnsDisabled (Cortex-M >= 3 branch): PRIMASK set, or BASEPRI at
or beyond the configured cutoff. -/
def IRQ_AreAllIRQnsDisabled (s : CpuState) : Bool :=
  decide (get_PRIMASK s &&& 1 = 1) || decide (basePriShifted s.basePriLevel ≤ get_BASEPRI s)

/-- IRQ_IsIRQnBlocked (Cortex-M >= 3 branch).  The leading ASSERT of the
source loops forever outside [-12, 0xF0); the argument range is carried as a
hypothesis by the theorems instead.  Cascade: PRIMASK set; line disabled;
BASEPRI active and line priority at or beyond the threshold field; active
handler at least as urgent as the line. -/
def IRQ_IsIRQnBlocked (s : CpuState) (irqNum : Int) : Bool :=
  if get_PRIMASK s &&& 1 ≠ 0 then true
  else if NVIC_IsIRQnDisabled s.iser irqNum then true
  else
    let irqPri := s.prio irqNum
    if s.basepri ≠ 0 ∧ s.basepri >>> BASEPRI_START_BIT ≤ irqPri then true
    else if s.activeIrq ≠ 0 ∧ s.prio ((s.activeIrq : Int) - 16) ≤ irqPri then true
    else false

/-- Enable bit of a non-negative line in a mask under the data model's layout:
word index irqNum >> 5, bit index irqNum mod 32. -/
def lineEnabled (iser : NVIC_Mask_t) (irqNum : Int) : Bool :=
  Nat.testBit (iser (wordIdx (irqNum.toNat % 256))) (irqNum.toNat % 32)

/-- Modelled from the spec: the IsBlocked decision cascade exactly as the spec
words it — (a) full mask active; (b) the line's enable bit clear; (c)
threshold register non-zero and the line's configured priority numerically at
or beyond the threshold value; (d) inside a handler whose priority is
numerically at most the line's.  Specification side of the refinement claim
about IRQ_IsIRQnBlocked. -/
def specIsBlocked (s : CpuState) (irqNum : Int) : Bool :=
  if s.primask then true
  else if ¬ lineEnabled s.iser irqNum then true
  else if s.basepri ≠ 0 ∧ s.basepri >>> BASEPRI_START_BIT ≤ s.prio irqNum then true
  else if s.activeIrq ≠ 0 ∧ s.prio ((s.activeIrq : Int) - 16) ≤ s.prio irqNum then true
  else false

/-- Properly nested (strict LIFO) masking programs: sequences of critical
sections, threshold sections and threshold reconfigurations. -/
inductive MaskProg where
  | skip : MaskProg
  | seq (p q : MaskProg) : MaskProg
  | primaskSection (body : MaskProg) : MaskProg
  | basepriSection (body : MaskProg) : MaskProg
  | setThreshold (lvl : Nat) : MaskProg

/-- Run a properly nested masking program: every section saves its register
through the Enter of the source and hands exactly that saved value to the
matching Exit. -/
def runProg : MaskProg → CpuState → CpuState
  | .skip, s => s
  | .seq p q, s => runProg q (runProg p s)
  | .primaskSection p, s =>
    let r := PRIMASK_EnterCriticalSection s
    PRIMASK_ExitCriticalSection r.1 (runProg p r.2)
  | .basepriSection p, s =>
    let r := BASEPRI_EnterInterruptsDisabledByThresholdSection s
    BASEPRI_ExitInterruptsDisabledByThresholdSection r.1 (runProg p r.2)
  | .setThreshold lvl, s => (BASEPRI_SetPriorityLevelThreshold lvl s).2

/-- Concrete mask with only line 0. -/
def maskUnit : NVIC_Mask_t := fun j => if j.val = 0 then 1 else 0

/-- Concrete mask with lines 0 and 1 (the scenario's A and B). -/
def maskAB : NVIC_Mask_t := fun j => if j.val = 0 then 3 else 0

/-- Concrete mask with lines 0, 1 and 2 (the scenario's A, B and C). -/
def maskABC : NVIC_Mask_t := fun j => if j.val = 0 then 7 else 0

/-- Concrete mask with every line enabled. -/
def maskAllOnes : NVIC_Mask_t := fun _ => 0xFFFFFFFF

/-- Enable set of the scenario after DisableSpecific({A, B}) from all-enabled. -/
def iserAfterDisableAB : NVIC_Mask_t := fun j => if j.val = 0 then 0xFFFFFFFC else 0xFFFFFFFF

/-- Concrete state: not PRIMASK-masked, BASEPRI at the default cutoff 0x30,
every line enabled, every priority 0, no active handler. -/
def cexState : CpuState :=
  { primask := false, basepri := 0x30, basePriLevel := 3, iser := maskAllOnes,
    activeIrq := 0, prio := fun _ => 0 }

/-- Concrete state used by witnesses: PRIMASK-masked, BASEPRI at 0x30. -/
def demoState : CpuState :=
  { primask := true, basepri := 0x30, basePriLevel := 3, iser := maskAllOnes,
    activeIrq := 0, prio := fun _ => 0 }

/-- Concrete state: unmasked, BASEPRI clear (no masking active). -/
def idleState : CpuState :=
  { primask := false, basepri := 0, basePriLevel := 3, iser := maskAllOnes,
    activeIrq := 0, prio := fun _ => 0 }

/-- Concrete nested program: a critical section around two threshold
sections with a threshold reconfiguration inside the first. -/
def demoProg : MaskProg :=
  .primaskSection (.seq (.basepriSection (.setThreshold 5)) (.basepriSection .skip))

theorem land_add_ldiff (a : Nat) : ∀ b : Nat, (a &&& b) + Nat.ldiff a b = a := by
  induction a using Nat.binaryRec with
  | z =>
    intro b
    simp [Nat.ldiff]
  | f x m ih =>
    intro b
    conv_lhs => rw [← Nat.bit_decomp b]
    rw [Nat.land_bit, Nat.ldiff_bit]
    have hb := ih b.div2
    cases x <;> cases b.bodd <;> simp [Nat.bit_val] <;> omega

theorem andNot_eq_ldiff (a b : Nat) : andNot a b = Nat.ldiff a b := by
  have h := land_add_ldiff a b
  rw [andNot]
  omega

theorem testBit_andNot (x y i : Nat) :
    (andNot x y).testBit i = (x.testBit i && !(y.testBit i)) := by
  rw [andNot_eq_ldiff, Nat.testBit_ldiff]

theorem andNot_andNot_self_eq_zero (e d : Nat) : andNot (andNot e d) e = 0 := by
  apply Nat.eq_of_testBit_eq
  intro i
  rw [testBit_andNot, testBit_andNot, Nat.zero_testBit]
  cases e.testBit i <;> simp

theorem andNot_lor_shift (m k : Nat) (h : m.testBit k = false) :
    andNot (m ||| 1 <<< k) (1 <<< k) = m := by
  apply Nat.eq_of_testBit_eq
  intro i
  rw [testBit_andNot, Nat.testBit_lor, Nat.one_shiftLeft, Nat.testBit_two_pow]
  by_cases hik : k = i
  · subst hik
    simp [h]
  · simp [hik]

theorem runThresholdRequests_last (lvls : List Nat) :
    ∀ s : CpuState,
      BASEPRI_GetPriorityLevelThreshold (runThresholdRequests lvls s)
          = BASEPRI_GetPriorityLevelThreshold s ∨
      ∃ l ∈ lvls, IS_INT_LVL_VALID l = true ∧
        BASEPRI_GetPriorityLevelThreshold (runThresholdRequests lvls s) = (l : Int) := by
  induction lvls with
  | nil => intro s; left; rfl
  | cons a as ih =>
    intro s
    have hstep : runThresholdRequests (a :: as) s
        = runThresholdRequests as (BASEPRI_SetPriorityLevelThreshold a s).2 := rfl
    by_cases hv : IS_INT_LVL_VALID a = true
    · have h2 : (BASEPRI_SetPriorityLevelThreshold a s).2
          = { s with basePriLevel := (a : Int) } := by
        simp [BASEPRI_SetPriorityLevelThreshold, hv]
      rcases ih (BASEPRI_SetPriorityLevelThreshold a s).2 with h | ⟨l, hl, hlv, hle⟩
      · right
        refine ⟨a, List.mem_cons_self _ _, hv, ?_⟩
        rw [hstep, h, h2]
        rfl
      · right
        exact ⟨l, List.mem_cons_of_mem _ hl, hlv, by rw [hstep]; exact hle⟩
    · have h2 : (BASEPRI_SetPriorityLevelThreshold a s).2 = s := by
        simp [BASEPRI_SetPriorityLevelThreshold, hv]
      rcases ih (BASEPRI_SetPriorityLevelThreshold a s).2 with h | ⟨l, hl, hlv, hle⟩
      · left
        rw [hstep, h, h2]
      · right
        exact ⟨l, List.mem_cons_of_mem _ hl, hlv, by rw [hstep]; exact hle⟩

/-- C1 counterexample: with line 0 initially enabled and an empty disable
mask, Enter immediately followed by Exit (no intervening mutation) does not
leave the enable register at its pre-Enter snapshot: the exit path goes
through the write-one-to-clear disable write and clears every line that the
snapshot recorded as enabled. -/
theorem nvic_enter_exit_restore_cex :
    NVIC_ExitSpecificInterruptDisabledSection
      (NVIC_EnterSpecificInterruptDisabledSection zeroMask maskUnit).1
      (NVIC_EnterSpecificInterruptDisabledSection zeroMask maskUnit).2 ≠ maskUnit := by
  decide

/-- C1 amended: Enter snapshots the pre-call enable-register contents e into
saved and clears (subtractively, not by replacement) the lines of the disable
mask from the live enable register; the immediately following Exit with that
saved snapshot then clears the lines of saved too, leaving every word of the
enable register zero — which equals the pre-Enter snapshot only when the
snapshot was already empty. -/
theorem nvic_enter_exit_clears (e d : NVIC_Mask_t) :
    (NVIC_EnterSpecificInterruptDisabledSection d e).1 = e ∧
    (NVIC_EnterSpecificInterruptDisabledSection d e).2
        = (fun i => andNot (e i) (d i)) ∧
    NVIC_ExitSpecificInterruptDisabledSection
      (NVIC_EnterSpecificInterruptDisabledSection d e).1
      (NVIC_EnterSpecificInterruptDisabledSection d e).2 = zeroMask := by
  refine ⟨rfl, rfl, ?_⟩
  funext i
  exact andNot_andNot_self_eq_zero (e i) (d i)

/-- C3 counterexample: with the bit of line 0 already set in the starting
mask, clearing line 0 after setting line 0 does not return the starting
mask. -/
theorem set_clear_roundtrip_cex :
    NVIC_ClearSpecificInterruptInAMask 0 (NVIC_SetSpecificInterruptInAMask 0 maskUnit)
      ≠ maskUnit := by
  decide

/-- C3 amended: for every valid line L whose bit is clear in the starting
mask m, ClearBit(SetBit(m, L), L) equals m byte for byte; and for every
invalid line identifier both operations leave the mask unchanged. -/
theorem set_clear_roundtrip_amended :
    (∀ (m : NVIC_Mask_t) (L : Int), IS_INTERRUPT_NUM L = true →
      Nat.testBit (m (wordIdx (L.toNat % 256))) (L.toNat % 256 &&& 0x1F) = false →
      NVIC_ClearSpecificInterruptInAMask L (NVIC_SetSpecificInterruptInAMask L m) = m) ∧
    (∀ (m : NVIC_Mask_t) (L : Int), IS_INTERRUPT_NUM L = false →
      NVIC_SetSpecificInterruptInAMask L m = m ∧
      NVIC_ClearSpecificInterruptInAMask L m = m) := by
  constructor
  · intro m L hv hbit
    funext j
    simp only [NVIC_ClearSpecificInterruptInAMask, NVIC_SetSpecificInterruptInAMask, hv,
      if_true]
    by_cases hj : j = wordIdx (L.toNat % 256)
    · subst hj
      simp only [if_pos rfl]
      exact andNot_lor_shift _ _ hbit
    · simp [hj]
  · intro m L hv
    constructor <;>
      simp [NVIC_SetSpecificInterruptInAMask, NVIC_ClearSpecificInterruptInAMask, hv]

/-- C3 witness: the amended round trip at line 5 on the empty mask, and the
invalid-line no-op at line -1. -/
theorem set_clear_roundtrip_amended_witness :
    (NVIC_ClearSpecificInterruptInAMask 5 (NVIC_SetSpecificInterruptInAMask 5 zeroMask)
        = zeroMask) ∧
    (NVIC_SetSpecificInterruptInAMask (-1) maskUnit = maskUnit ∧
      NVIC_ClearSpecificInterruptInAMask (-1) maskUnit = maskUnit) :=
  ⟨set_clear_roundtrip_amended.1 zeroMask 5 (by decide) (by decide),
   set_clear_roundtrip_amended.2 maskUnit (-1) (by decide)⟩

/-- C6: the threshold setter succeeds exactly on the open-closed range
(0, 7]; a rejected request leaves the stored level untouched; on hardware
without the BASEPRI register the setter always fails and changes nothing; and
after any sequence of requests starting from the default, the getter returns
the default or some level that was accepted by the setter. -/
theorem threshold_setter_contract :
    (∀ (lvl : Nat) (s : CpuState),
      (BASEPRI_SetPriorityLevelThreshold lvl s).1 = true ↔ 0 < lvl ∧ lvl ≤ 7) ∧
    (∀ (lvl : Nat) (s : CpuState),
      (BASEPRI_SetPriorityLevelThreshold lvl s).1 = false →
      (BASEPRI_SetPriorityLevelThreshold lvl s).2 = s) ∧
    (∀ (lvl : Nat) (s : CpuState),
      BASEPRI_SetPriorityLevelThreshold_noBasepri lvl s = (false, s)) ∧
    (∀ (lvls : List Nat) (s : CpuState), s.basePriLevel = initBasePriLevel →
      BASEPRI_GetPriorityLevelThreshold (runThresholdRequests lvls s) = initBasePriLevel ∨
      ∃ l ∈ lvls, IS_INT_LVL_VALID l = true ∧
        BASEPRI_GetPriorityLevelThreshold (runThresholdRequests lvls s) = (l : Int)) := by
  refine ⟨?_, ?_, ?_, ?_⟩
  · intro lvl s
    by_cases hv : IS_INT_LVL_VALID lvl = true
    · simp only [BASEPRI_SetPriorityLevelThreshold, hv, if_true]
      have := of_decide_eq_true hv
      simp only [IS_INT_LVL_VALID, INTERRUPT_HIGHEST_PRIORITY,
        INTERRUPT_LOWEST_PRIORITY] at this ⊢
      simpa using this
    · simp only [BASEPRI_SetPriorityLevelThreshold, hv, if_false]
      have := of_decide_eq_false (Bool.of_not_eq_true hv)
      simp only [IS_INT_LVL_VALID, INTERRUPT_HIGHEST_PRIORITY,
        INTERRUPT_LOWEST_PRIORITY] at this ⊢
      simpa using this
  · intro lvl s h
    by_cases hv : IS_INT_LVL_VALID lvl = true
    · simp [BASEPRI_SetPriorityLevelThreshold, hv] at h
    · simp [BASEPRI_SetPriorityLevelThreshold, hv]
  · intro lvl s
    rfl
  · intro lvls s hinit
    rcases runThresholdRequests_last lvls s with h | h
    · left
      rw [h, BASEPRI_GetPriorityLevelThreshold, hinit]
    · right
      exact h

/-- C6 witness: request 9 is rejected without side effect on a concrete
state, and a concrete request sequence leaves the getter at the default or at
an accepted level. -/
theorem threshold_setter_contract_witness :
    ((BASEPRI_SetPriorityLevelThreshold 5 demoState).1 = true) ∧
    ((BASEPRI_SetPriorityLevelThreshold 9 demoState).2 = demoState) ∧
    (BASEPRI_GetPriorityLevelThreshold (runThresholdRequests [9, 5] demoState)
        = initBasePriLevel ∨
      ∃ l ∈ [9, 5], IS_INT_LVL_VALID l = true ∧
        BASEPRI_GetPriorityLevelThreshold (runThresholdRequests [9, 5] demoState) = (l : Int)) :=
  ⟨(threshold_setter_contract.1 5 demoState).mpr (by decide),
   threshold_setter_contract.2.1 9 demoState (by decide),
   threshold_setter_contract.2.2.2 [9, 5] demoState (by decide)⟩

/-- C4: every properly nested (strict LIFO) program of PRIMASK critical
sections and BASEPRI threshold sections — each Exit receiving exactly the
saved value returned by its matching Enter, at any nesting depth and with
arbitrary transient threshold reconfiguration inside — leaves both masking
registers exactly as they were before the outermost Enter.  (BASEPRI Exit
restores the raw captured register value, not a value re-derived from the
configured threshold, which is why the interleaved setThreshold steps cannot
break restoration.) -/
theorem nested_sections_restore (p : MaskProg) :
    ∀ s : CpuState, s.basepri < 256 →
      (runProg p s).primask = s.primask ∧ (runProg p s).basepri = s.basepri := by
  induction p with
  | skip =>
    intro s h
    exact ⟨rfl, rfl⟩
  | seq p q ihp ihq =>
    intro s h
    have hp := ihp s h
    have hq := ihq (runProg p s) (by rw [hp.2]; exact h)
    exact ⟨hq.1.trans hp.1, hq.2.trans hp.2⟩
  | primaskSection body ih =>
    intro s h
    have hbody := ih (disable_irq s) h
    show (PRIMASK_ExitCriticalSection (get_PRIMASK s) (runProg body (disable_irq s))).primask
          = s.primask ∧
        (PRIMASK_ExitCriticalSection (get_PRIMASK s) (runProg body (disable_irq s))).basepri
          = s.basepri
    by_cases hp : s.primask
    · have hg : get_PRIMASK s = 1 := by simp [get_PRIMASK, hp]
      rw [hg, PRIMASK_ExitCriticalSection, if_neg (by omega)]
      exact ⟨hbody.1.trans (by simp [disable_irq, hp]), hbody.2⟩
    · have hg : get_PRIMASK s = 0 := by simp [get_PRIMASK, hp]
      rw [hg, PRIMASK_ExitCriticalSection, if_pos rfl]
      refine ⟨by simp [enable_irq, hp], ?_⟩
      show (runProg body (disable_irq s)).basepri = s.basepri
      exact hbody.2
  | basepriSection body ih =>
    intro s h
    have hbody := ih (set_BASEPRI (basePriShifted s.basePriLevel) s)
      (Nat.mod_lt _ (by norm_num))
    show (set_BASEPRI (get_BASEPRI s)
          (runProg body (set_BASEPRI (basePriShifted s.basePriLevel) s))).primask
          = s.primask ∧
        (set_BASEPRI (get_BASEPRI s)
          (runProg body (set_BASEPRI (basePriShifted s.basePriLevel) s))).basepri
          = s.basepri
    constructor
    · exact hbody.1.trans rfl
    · show get_BASEPRI s % 256 = s.basepri
      show s.basepri % 256 = s.basepri
      exact Nat.mod_eq_of_lt h
  | setThreshold lvl =>
    intro s h
    show ((BASEPRI_SetPriorityLevelThreshold lvl s).2.primask = s.primask ∧
      (BASEPRI_SetPriorityLevelThreshold lvl s).2.basepri = s.basepri)
    by_cases hv : IS_INT_LVL_VALID lvl = true <;>
      simp [BASEPRI_SetPriorityLevelThreshold, hv]

/-- C4 witness: a depth-3 nested program with a transient threshold change
restores both registers on a concrete state. -/
theorem nested_sections_restore_witness :
    (runProg demoProg cexState).primask = cexState.primask ∧
    (runProg demoProg cexState).basepri = cexState.basepri :=
  nested_sections_restore demoProg cexState (by decide)

/-- C8: each trigger operation pulses only when its own mask is active at the
call.  PRIMASK trigger with the mask set: transient unmask, then the barrier,
then remask, ending in exactly the entry state; with the mask clear: no
register write.  BASEPRI trigger with the register at or beyond the
configured cutoff: transient write of zero, then the barrier, then restore of
the raw entry value, ending in exactly the entry state; below the cutoff: no
register write. -/
theorem trigger_pending_contract :
    (∀ s : CpuState, s.primask = true →
      PRIMASK_TriggerPendingInterrupts s = (s, [Ev.unmaskAll, Ev.isb, Ev.maskAll])) ∧
    (∀ s : CpuState, s.primask = false →
      PRIMASK_TriggerPendingInterrupts s = (s, [])) ∧
    (∀ s : CpuState, s.basepri < 256 →
      basePriShifted s.basePriLevel ≤ s.basepri →
      BASEPRI_TriggerPendingInterruptsByThreshold s
        = (s, [Ev.setBasepri 0, Ev.isb, Ev.setBasepri s.basepri])) ∧
    (∀ s : CpuState, ¬ basePriShifted s.basePriLevel ≤ s.basepri →
      BASEPRI_TriggerPendingInterruptsByThreshold s = (s, [])) := by
  refine ⟨?_, ?_, ?_, ?_⟩
  · intro s hp
    have hs : disable_irq (enable_irq s) = s := by
      cases s
      simp_all [disable_irq, enable_irq]
    simp only [PRIMASK_TriggerPendingInterrupts, get_PRIMASK, hp, hs]
    rw [if_pos (by decide)]
  · intro s hp
    simp only [PRIMASK_TriggerPendingInterrupts, get_PRIMASK, hp]
    rw [if_neg (by decide)]
  · intro s hlt hc
    have hs : set_BASEPRI s.basepri (set_BASEPRI 0 s) = s := by
      cases s
      simp only [set_BASEPRI]
      simp_all [Nat.mod_eq_of_lt]
    simp only [BASEPRI_TriggerPendingInterruptsByThreshold, get_BASEPRI]
    rw [if_pos hc, hs]
  · intro s hc
    simp only [BASEPRI_TriggerPendingInterruptsByThreshold, get_BASEPRI]
    rw [if_neg hc]

/-- C8 witness: concrete runs of all four cases — PRIMASK trigger on a masked
and on an unmasked state, BASEPRI trigger at the cutoff and below it. -/
theorem trigger_pending_contract_witness :
    (PRIMASK_TriggerPendingInterrupts demoState
        = (demoState, [Ev.unmaskAll, Ev.isb, Ev.maskAll])) ∧
    (PRIMASK_TriggerPendingInterrupts cexState = (cexState, [])) ∧
    (BASEPRI_TriggerPendingInterruptsByThreshold cexState
        = (cexState, [Ev.setBasepri 0, Ev.isb, Ev.setBasepri cexState.basepri])) ∧
    (BASEPRI_TriggerPendingInterruptsByThreshold idleState = (idleState, [])) :=
  ⟨trigger_pending_contract.1 demoState (by decide),
   trigger_pending_contract.2.1 cexState (by decide),
   trigger_pending_contract.2.2.1 cexState (by decide) (by decide),
   trigger_pending_contract.2.2.2 idleState (by decide)⟩

theorem land_andNot_self (m x : Nat) : m &&& andNot x m = 0 := by
  apply Nat.eq_of_testBit_eq
  intro i
  rw [Nat.testBit_land, testBit_andNot, Nat.zero_testBit]
  cases m.testBit i <;> simp

theorem land_lor_self (m x : Nat) : m &&& (x ||| m) = m := by
  apply Nat.eq_of_testBit_eq
  intro i
  rw [Nat.testBit_land, Nat.testBit_lor]
  cases m.testBit i <;> simp

theorem andNot_land_self (t x : Nat) : andNot t (x &&& t) = andNot t x := by
  apply Nat.eq_of_testBit_eq
  intro i
  rw [testBit_andNot, testBit_andNot, Nat.testBit_land]
  cases t.testBit i <;> cases x.testBit i <;> simp

theorem lor_andNot_cancel (x t : Nat) :
    andNot (x ||| andNot t (x &&& t)) (andNot t (x &&& t)) = x := by
  apply Nat.eq_of_testBit_eq
  intro i
  rw [testBit_andNot, Nat.testBit_lor, testBit_andNot, Nat.testBit_land]
  cases x.testBit i <;> cases t.testBit i <;> simp

theorem iserLoopCheck_true_iff (mask nvic : NVIC_Mask_t) :
    ∀ (fuel i : Nat), 8 ≤ i + fuel →
      (iserLoopCheck mask nvic fuel i = true ↔
        ∀ j : Fin MAX_NVIC_REG_WORDS, i ≤ (j : Nat) → mask j &&& nvic j = 0) := by
  intro fuel
  induction fuel with
  | zero =>
    intro i hi
    simp only [iserLoopCheck]
    constructor
    · intro _ j hj
      have hj8 : (j : Nat) < 8 := j.isLt
      omega
    · intro _
      trivial
  | succ fuel ih =>
    intro i hi
    by_cases h : i < MAX_NVIC_REG_WORDS
    · have h8 : i < 8 := h
      simp only [iserLoopCheck, dif_pos h]
      by_cases hz : mask ⟨i, h⟩ &&& nvic ⟨i, h⟩ ≠ 0
      · rw [if_pos hz]
        constructor
        · intro hfalse
          cases hfalse
        · intro hall
          exact absurd (hall ⟨i, h⟩ (Nat.le_refl _)) hz
      · rw [if_neg hz]
        push_neg at hz
        rw [ih (i + 1) (by omega)]
        constructor
        · intro hall j hj
          rcases Nat.eq_or_lt_of_le hj with heq | hlt
          · have hji : j = ⟨i, h⟩ := Fin.ext heq.symm
            rw [hji]
            exact hz
          · exact hall j hlt
        · intro hall j hj
          exact hall j (by omega)
    · have h8 : ¬ i < 8 := h
      simp only [iserLoopCheck, dif_neg h]
      constructor
      · intro _ j hj
        have hj8 : (j : Nat) < 8 := j.isLt
        omega
      · intro _
        trivial

theorem isMaskDisabled_zero_iff (mask iser : NVIC_Mask_t) :
    NVIC_IsNvicIserMaskDisabled 0 mask iser = true ↔
      ∀ j : Fin MAX_NVIC_REG_WORDS, mask j &&& iser j = 0 := by
  show iserLoopCheck mask (readEnableReg iser) MAX_NVIC_REG_WORDS 0 = true ↔ _
  rw [readEnableReg, iserLoopCheck_true_iff mask iser MAX_NVIC_REG_WORDS 0 (by decide)]
  constructor
  · intro h j
    exact h j (Nat.zero_le _)
  · intro h j _
    exact h j

/-- C9 (intended loop start 0, the evident intent of the uninitialized loop
index): the mask-disabled query returns true immediately after disabling the
(non-empty) mask, false immediately after enabling it, and in general returns
true iff no bit of the query mask is set in the live enable register; and the
divergent behaviour the uninitialized index permits — with start index 8 the
loop body never runs and the query answers true even though the mask overlaps
the enable set. -/
theorem iser_mask_disabled_contract :
    (∀ (mask iser : NVIC_Mask_t), (∃ i, mask i ≠ 0) →
      NVIC_IsNvicIserMaskDisabled 0 mask (NVIC_DisableSpecificInterrupts mask iser) = true) ∧
    (∀ (mask iser : NVIC_Mask_t), (∃ i, mask i ≠ 0) →
      NVIC_IsNvicIserMaskDisabled 0 mask (NVIC_EnableSpecificInterrupts mask iser) = false) ∧
    (∀ (mask iser : NVIC_Mask_t),
      NVIC_IsNvicIserMaskDisabled 0 mask iser = true ↔
        ∀ j : Fin MAX_NVIC_REG_WORDS, mask j &&& iser j = 0) ∧
    (NVIC_IsNvicIserMaskDisabled 8 maskUnit maskUnit = true ∧
      maskUnit 0 &&& maskUnit 0 ≠ 0) := by
  refine ⟨?_, ?_, isMaskDisabled_zero_iff, by decide⟩
  · intro mask iser _
    rw [isMaskDisabled_zero_iff]
    intro j
    show mask j &&& andNot (iser j) (mask j) = 0
    exact land_andNot_self _ _
  · intro mask iser h
    rcases h with ⟨i0, hi0⟩
    cases hb : NVIC_IsNvicIserMaskDisabled 0 mask (NVIC_EnableSpecificInterrupts mask iser) with
    | false => rfl
    | true =>
      exfalso
      have hall := (isMaskDisabled_zero_iff _ _).mp hb
      have h0 := hall i0
      rw [show NVIC_EnableSpecificInterrupts mask iser i0 = iser i0 ||| mask i0 from rfl,
        land_lor_self] at h0
      exact hi0 h0

/-- C9 witness: concrete runs — after disabling line 0 the query reports the
line-0 mask disabled, after enabling it the query reports it enabled. -/
theorem iser_mask_disabled_contract_witness :
    (NVIC_IsNvicIserMaskDisabled 0 maskUnit
        (NVIC_DisableSpecificInterrupts maskUnit maskAllOnes) = true) ∧
    (NVIC_IsNvicIserMaskDisabled 0 maskUnit
        (NVIC_EnableSpecificInterrupts maskUnit zeroMask) = false) :=
  ⟨iser_mask_disabled_contract.1 maskUnit maskAllOnes ⟨0, by decide⟩,
   iser_mask_disabled_contract.2.1 maskUnit zeroMask ⟨0, by decide⟩⟩

theorem triggerMaskLoop_fst (enable : NVIC_Mask_t) :
    ∀ (fuel i : Nat) (m : NVIC_Mask_t) (st : Bool), 8 ≤ i + fuel →
      (triggerMaskLoop enable fuel i m st).1
        = fun (j : Fin MAX_NVIC_REG_WORDS) =>
            if i ≤ j.val then andNot (enable j) (m j &&& enable j) else m j := by
  intro fuel
  induction fuel with
  | zero =>
    intro i m st hi
    simp only [triggerMaskLoop]
    funext j
    have hj8 : j.val < 8 := j.isLt
    rw [if_neg (by omega)]
  | succ fuel ih =>
    intro i m st hi
    by_cases h : i < MAX_NVIC_REG_WORDS
    · have h8 : i < 8 := h
      simp only [triggerMaskLoop, dif_pos h]
      rw [ih (i + 1) _ _ (by omega)]
      funext j
      have hval : ((⟨i, h⟩ : Fin MAX_NVIC_REG_WORDS) : Nat) = i := rfl
      by_cases hji : j.val = i
      · have hj : j = ⟨i, h⟩ := Fin.ext (by omega)
        have hc1 : ¬ (i + 1 ≤ j.val) := by omega
        have hc3 : i ≤ j.val := by omega
        rw [if_neg hc1, if_pos hj, if_pos hc3, hj]
      · have hne : j ≠ ⟨i, h⟩ := fun he => hji (by rw [he])
        by_cases hlt : j.val < i
        · have hc1 : ¬ (i + 1 ≤ j.val) := by omega
          have hc3 : ¬ (i ≤ j.val) := by omega
          rw [if_neg hc1, if_neg hne, if_neg hc3]
        · have hc1 : i + 1 ≤ j.val := by omega
          have hc3 : i ≤ j.val := by omega
          rw [if_pos hc1, if_neg hne, if_pos hc3]
    · have h8 : ¬ i < 8 := h
      simp only [triggerMaskLoop, dif_neg h]
      funext j
      have hj8 : j.val < 8 := j.isLt
      rw [if_neg (by omega)]

theorem triggerMaskLoop_snd (enable : NVIC_Mask_t) :
    ∀ (fuel i : Nat) (m : NVIC_Mask_t) (st : Bool), 8 ≤ i + fuel →
      ((triggerMaskLoop enable fuel i m st).2 = true ↔
        st = true ∨ ∃ j : Fin MAX_NVIC_REG_WORDS, i ≤ j.val ∧
          andNot (enable j) (m j &&& enable j) ≠ 0) := by
  intro fuel
  induction fuel with
  | zero =>
    intro i m st hi
    simp only [triggerMaskLoop]
    constructor
    · intro hst
      exact Or.inl hst
    · rintro (hst | ⟨j, hj, _⟩)
      · exact hst
      · have hj8 : j.val < 8 := j.isLt
        omega
  | succ fuel ih =>
    intro i m st hi
    by_cases h : i < MAX_NVIC_REG_WORDS
    · have h8 : i < 8 := h
      simp only [triggerMaskLoop, dif_pos h]
      rw [ih (i + 1) _ _ (by omega)]
      have hval : ((⟨i, h⟩ : Fin MAX_NVIC_REG_WORDS) : Nat) = i := rfl
      constructor
      · rintro (hst | ⟨j, hj, hne⟩)
        · by_cases hv : andNot (enable ⟨i, h⟩) (m ⟨i, h⟩ &&& enable ⟨i, h⟩) ≠ 0
          · exact Or.inr ⟨⟨i, h⟩, by omega, hv⟩
          · rw [if_neg hv] at hst
            exact Or.inl hst
        · have hj8 : j.val < 8 := j.isLt
          have hne' : j ≠ ⟨i, h⟩ := fun he => by
            rw [he] at hj
            omega
          rw [if_neg hne'] at hne
          exact Or.inr ⟨j, by omega, hne⟩
      · rintro (hst | ⟨j, hj, hne⟩)
        · left
          split
          · rfl
          · exact hst
        · by_cases hji : j.val = i
          · have hj' : j = ⟨i, h⟩ := Fin.ext (by omega)
            subst hj'
            left
            rw [if_pos hne]
          · have hne' : j ≠ ⟨i, h⟩ := fun he => hji (by rw [he])
            exact Or.inr ⟨j, by omega, by rw [if_neg hne']; exact hne⟩
    · have h8 : ¬ i < 8 := h
      simp only [triggerMaskLoop, dif_neg h]
      constructor
      · intro hst
        exact Or.inl hst
      · rintro (hst | ⟨j, hj, _⟩)
        · exact hst
        · have hj8 : j.val < 8 := j.isLt
          omega

theorem triggerMaskLoop_zero_fst (enable iser : NVIC_Mask_t) :
    (triggerMaskLoop enable MAX_NVIC_REG_WORDS 0 (readEnableReg iser) false).1
      = triggerPulse enable iser := by
  rw [readEnableReg, triggerMaskLoop_fst enable MAX_NVIC_REG_WORDS 0 iser false (by decide)]
  funext j
  rw [if_pos (Nat.zero_le _)]
  rfl

theorem triggerMaskLoop_zero_snd (enable iser : NVIC_Mask_t) :
    (triggerMaskLoop enable MAX_NVIC_REG_WORDS 0 (readEnableReg iser) false).2 = true ↔
      ∃ j : Fin MAX_NVIC_REG_WORDS, triggerPulse enable iser j ≠ 0 := by
  rw [readEnableReg, triggerMaskLoop_snd enable MAX_NVIC_REG_WORDS 0 iser false (by decide)]
  constructor
  · rintro (hst | ⟨j, _, hne⟩)
    · cases hst
    · exact ⟨j, hne⟩
  · rintro ⟨j, hne⟩
    exact Or.inr ⟨j, Nat.zero_le _, hne⟩

/-- C7 (intended loop start 0, the evident intent of the uninitialized loop
index): the loop computes exactly the pulse set, per word the target lines
currently disabled (target and-not currently-enabled); a line already enabled
never appears in the pulse, so it is never written; if the pulse is non-empty
the operation writes the pulse to ISER, issues the barrier, then writes the
same pulse to ICER, and the final enable state equals the initial one (the
targeted disabled lines end re-disabled); if the pulse is empty nothing is
written.  The last two conjuncts are the section-8 scenario (A, B disabled
then re-disabled by the pulse, C untouched) and the divergent behaviour the
uninitialized index permits (start index 8: no pulse at all). -/
theorem trigger_specific_contract :
    (∀ (enable iser : NVIC_Mask_t),
      (triggerMaskLoop enable MAX_NVIC_REG_WORDS 0 (readEnableReg iser) false).1
        = triggerPulse enable iser) ∧
    (∀ (enable iser : NVIC_Mask_t) (j : Fin MAX_NVIC_REG_WORDS),
      triggerPulse enable iser j = andNot (enable j) (iser j)) ∧
    (∀ (enable iser : NVIC_Mask_t) (j : Fin MAX_NVIC_REG_WORDS) (b : Nat),
      (iser j).testBit b = true → (triggerPulse enable iser j).testBit b = false) ∧
    (∀ (enable iser : NVIC_Mask_t),
      (NVIC_TriggerSpecificPendingInterrupts 0 enable iser).1 = iser) ∧
    (∀ (enable iser : NVIC_Mask_t), (∃ j, triggerPulse enable iser j ≠ 0) →
      (NVIC_TriggerSpecificPendingInterrupts 0 enable iser).2
        = [Ev.iserWrite (triggerPulse enable iser), Ev.isb,
           Ev.icerWrite (triggerPulse enable iser)]) ∧
    (∀ (enable iser : NVIC_Mask_t), (∀ j, triggerPulse enable iser j = 0) →
      (NVIC_TriggerSpecificPendingInterrupts 0 enable iser).2 = []) ∧
    (NVIC_TriggerSpecificPendingInterrupts 0 maskABC iserAfterDisableAB
        = (iserAfterDisableAB, [Ev.iserWrite maskAB, Ev.isb, Ev.icerWrite maskAB]) ∧
      Nat.testBit (maskAB 0) 2 = false) ∧
    (NVIC_TriggerSpecificPendingInterrupts 8 maskABC iserAfterDisableAB
        = (iserAfterDisableAB, [])) := by
  refine ⟨triggerMaskLoop_zero_fst, ?_, ?_, ?_, ?_, ?_, ⟨?_, by decide⟩, ?_⟩
  · intro enable iser j
    exact andNot_land_self (enable j) (iser j)
  · intro enable iser j b hb
    rw [triggerPulse, testBit_andNot, Nat.testBit_land, hb]
    cases (enable j).testBit b <;> simp
  · intro enable iser
    by_cases hb :
      (triggerMaskLoop enable MAX_NVIC_REG_WORDS 0 (readEnableReg iser) false).2 = true
    · simp only [NVIC_TriggerSpecificPendingInterrupts]
      rw [if_pos hb, triggerMaskLoop_zero_fst]
      funext j
      exact lor_andNot_cancel (iser j) (enable j)
    · simp only [NVIC_TriggerSpecificPendingInterrupts]
      rw [if_neg hb]
  · intro enable iser h
    have hb := (triggerMaskLoop_zero_snd enable iser).mpr h
    simp only [NVIC_TriggerSpecificPendingInterrupts]
    rw [if_pos hb, triggerMaskLoop_zero_fst]
  · intro enable iser h
    have hb : ¬ (triggerMaskLoop enable MAX_NVIC_REG_WORDS 0
        (readEnableReg iser) false).2 = true := by
      rw [triggerMaskLoop_zero_snd]
      rintro ⟨j, hne⟩
      exact hne (h j)
    simp only [NVIC_TriggerSpecificPendingInterrupts]
    rw [if_neg hb]
  · have hpulse : triggerPulse maskABC iserAfterDisableAB = maskAB := by decide
    have hb := (triggerMaskLoop_zero_snd maskABC iserAfterDisableAB).mpr
      ⟨0, by decide⟩
    simp only [NVIC_TriggerSpecificPendingInterrupts]
    rw [if_pos hb, triggerMaskLoop_zero_fst, hpulse,
      show writeICER maskAB (writeISER maskAB iserAfterDisableAB) = iserAfterDisableAB
        from by decide]
  · have hb : ¬ (triggerMaskLoop maskABC MAX_NVIC_REG_WORDS 8
        (readEnableReg iserAfterDisableAB) false).2 = true := by
      rw [triggerMaskLoop_snd maskABC MAX_NVIC_REG_WORDS 8 _ false (by decide)]
      rintro (hst | ⟨j, hj, _⟩)
      · cases hst
      · have hj8 : j.val < 8 := j.isLt
        omega
    simp only [NVIC_TriggerSpecificPendingInterrupts]
    rw [if_neg hb]

/-- C7 witness: on the section-8 scenario state the pulse excludes the
enabled line C, the trigger emits the write-barrier-write sequence, and with
every target line already enabled nothing is written. -/
theorem trigger_specific_contract_witness :
    ((triggerPulse maskABC iserAfterDisableAB 0).testBit 2 = false) ∧
    ((NVIC_TriggerSpecificPendingInterrupts 0 maskABC iserAfterDisableAB).2
        = [Ev.iserWrite (triggerPulse maskABC iserAfterDisableAB), Ev.isb,
           Ev.icerWrite (triggerPulse maskABC iserAfterDisableAB)]) ∧
    ((NVIC_TriggerSpecificPendingInterrupts 0 maskABC maskAllOnes).2 = []) :=
  ⟨trigger_specific_contract.2.2.1 maskABC iserAfterDisableAB 0 2 (by decide),
   trigger_specific_contract.2.2.2.2.1 maskABC iserAfterDisableAB ⟨0, by decide⟩,
   trigger_specific_contract.2.2.2.2.2.1 maskABC maskAllOnes (by decide)⟩

theorem land_shift_eq_zero_iff (x k : Nat) :
    x &&& 1 <<< k = 0 ↔ x.testBit k = false := by
  rw [Nat.one_shiftLeft, Nat.and_two_pow]
  cases h : x.testBit k <;> simp [h]

theorem land_31_eq_mod (u : Nat) : u &&& 0x1F = u % 32 := by
  apply Nat.eq_of_testBit_eq
  intro i
  have h32 : (32 : Nat) = 2 ^ 5 := by norm_num
  have h31 : Nat.testBit 0x1F i = decide (i < 5) := by
    have h : (0x1F : Nat) = 2 ^ 5 - 1 := by norm_num
    rw [h, Nat.testBit_two_pow_sub_one]
  rw [Nat.testBit_land, h31, h32, Nat.testBit_mod_two_pow]
  cases hu : u.testBit i <;> simp

/-- C10: a core-exception number (negative, in [-16, -1], counted a valid
line by the data model) leaves both mask bit operations without any effect —
they accept only peripheral interrupt numbers in [0, 0xF0) — and
NVIC_IsIRQnDisabled reports every such line disabled, exactly as it does any
identifier outside the interrupt range. -/
theorem exception_line_defensive :
    (∀ (m iser : NVIC_Mask_t) (L : Int), -16 ≤ L → L < 0 →
      IS_EXCEPTION_NUM L = true ∧
      NVIC_SetSpecificInterruptInAMask L m = m ∧
      NVIC_ClearSpecificInterruptInAMask L m = m ∧
      NVIC_IsIRQnDisabled iser L = true) ∧
    (∀ (iser : NVIC_Mask_t) (L : Int), IS_INTERRUPT_NUM L = false →
      NVIC_IsIRQnDisabled iser L = true) := by
  constructor
  · intro m iser L h1 h2
    have hv : IS_INTERRUPT_NUM L = false := by
      simp only [IS_INTERRUPT_NUM, toInt16, decide_eq_false_iff_not]
      omega
    have he : IS_EXCEPTION_NUM L = true := by
      simp only [IS_EXCEPTION_NUM, toInt16, decide_eq_true_eq]
      omega
    refine ⟨he, ?_, ?_, ?_⟩
    · simp [NVIC_SetSpecificInterruptInAMask, hv]
    · simp [NVIC_ClearSpecificInterruptInAMask, hv]
    · simp [NVIC_IsIRQnDisabled, hv]
  · intro iser L hv
    simp [NVIC_IsIRQnDisabled, hv]

/-- C10 witness: the exception number -5 is a no-op for both bit operations
and reported disabled, and the out-of-range identifier 0xF0 is reported
disabled the same way. -/
theorem exception_line_defensive_witness :
    (IS_EXCEPTION_NUM (-5) = true ∧
      NVIC_SetSpecificInterruptInAMask (-5) maskUnit = maskUnit ∧
      NVIC_ClearSpecificInterruptInAMask (-5) maskUnit = maskUnit ∧
      NVIC_IsIRQnDisabled maskAllOnes (-5) = true) ∧
    NVIC_IsIRQnDisabled maskAllOnes 0xF0 = true :=
  ⟨exception_line_defensive.1 maskUnit maskAllOnes (-5) (by decide) (by decide),
   exception_line_defensive.2 maskAllOnes 0xF0 (by decide)⟩

/-- C2 counterexample: in a state where AreAllIRQnsDisabled is true only via
the BASEPRI threshold (PRIMASK clear, BASEPRI = 0x30 at the configured cutoff
3), the valid, enabled line 0 configured at priority 0 — strictly more urgent
than the threshold — is reported not blocked by IRQ_IsIRQnBlocked. -/
theorem allBlocked_blocked_cex :
    IRQ_AreAllIRQnsDisabled cexState = true ∧
    IRQ_IsIRQnBlocked cexState 0 = false := by
  constructor <;> decide

/-- C2 amended: whenever AreAllIRQnsDisabled is true, IRQ_IsIRQnBlocked is
true for every line — regardless of its enable bit — provided the full mask
is set or the line's configured priority is numerically at or beyond the
active threshold field; a line strictly more urgent than the threshold can
remain unblocked even while AllBlocked holds. -/
theorem allBlocked_blocked_amended (s : CpuState) (n : Int)
    (hall : IRQ_AreAllIRQnsDisabled s = true)
    (hl1 : 1 ≤ s.basePriLevel) (hl7 : s.basePriLevel ≤ 7)
    (hp : s.primask = true ∨ s.basepri >>> BASEPRI_START_BIT ≤ s.prio n) :
    IRQ_IsIRQnBlocked s n = true := by
  by_cases hpm : s.primask
  · simp [IRQ_IsIRQnBlocked, get_PRIMASK, hpm]
  · have hp2 : s.basepri >>> BASEPRI_START_BIT ≤ s.prio n := by
      rcases hp with hp | hp
      · exact absurd hp hpm
      · exact hp
    have h16 : 16 ≤ basePriShifted s.basePriLevel := by
      show 16 ≤ ((s.basePriLevel * 2 ^ BASEPRI_START_BIT) % 2 ^ 32).toNat
      have e1 : (2 ^ BASEPRI_START_BIT : Int) = 16 := by
        norm_num [BASEPRI_START_BIT, NVIC_PRIO_BITS]
      have e2 : (2 ^ 32 : Int) = 4294967296 := by norm_num
      rw [e1, e2]
      omega
    have hor := hall
    rw [IRQ_AreAllIRQnsDisabled, Bool.or_eq_true] at hor
    rcases hor with hA | hB
    · exfalso
      rw [get_PRIMASK, if_neg hpm] at hA
      exact absurd (of_decide_eq_true hA) (by decide)
    · have hge : basePriShifted s.basePriLevel ≤ get_BASEPRI s := of_decide_eq_true hB
      have hbz : s.basepri ≠ 0 := by
        rw [get_BASEPRI] at hge
        omega
      simp only [IRQ_IsIRQnBlocked, get_PRIMASK, if_neg hpm]
      rw [if_neg (by decide)]
      by_cases hd : NVIC_IsIRQnDisabled s.iser n = true
      · rw [if_pos hd]
      · rw [if_neg hd, if_pos ⟨hbz, hp2⟩]

/-- C2 witness: with PRIMASK set, AllBlocked holds and line 0 is blocked. -/
theorem allBlocked_blocked_amended_witness :
    IRQ_AreAllIRQnsDisabled demoState = true ∧
    IRQ_IsIRQnBlocked demoState 0 = true :=
  ⟨by decide,
   allBlocked_blocked_amended demoState 0 (by decide) (by decide) (by decide)
     (Or.inl (by decide))⟩

/-- C5: on every valid peripheral interrupt line (the non-negative range the
data model gives an enable bit, inside the span the leading ASSERT admits),
IRQ_IsIRQnBlocked decides blocked-ness exactly in the order the spec states:
full mask active; else enable bit clear; else threshold register non-zero and
configured priority numerically at or beyond the threshold value; else inside
a handler whose priority is numerically at most the line's; else not
blocked. -/
theorem isBlocked_decision_order (s : CpuState) (n : Int)
    (h0 : 0 ≤ n) (hF : n < 0xF0) :
    IRQ_IsIRQnBlocked s n = specIsBlocked s n := by
  have hv : IS_INTERRUPT_NUM n = true := by
    simp only [IS_INTERRUPT_NUM, toInt16, decide_eq_true_eq]
    omega
  have hsmall : n.toNat % 256 = n.toNat := by omega
  have hdis : NVIC_IsIRQnDisabled s.iser n = !(lineEnabled s.iser n) := by
    rw [NVIC_IsIRQnDisabled, if_pos hv, lineEnabled]
    simp only [hsmall, land_31_eq_mod]
    cases hb : Nat.testBit (s.iser (wordIdx n.toNat)) (n.toNat % 32) <;>
      simp [land_shift_eq_zero_iff, hb]
  simp only [IRQ_IsIRQnBlocked, specIsBlocked, get_PRIMASK, hdis]
  by_cases hpm : s.primask
  · simp [hpm]
  · simp only [hpm, Bool.false_eq_true, if_false]
    rw [if_neg (by decide)]
    cases hle : lineEnabled s.iser n <;> simp [hle]

/-- C5 witness: the refinement instantiated at a concrete state and the
concrete valid line 3. -/
theorem isBlocked_decision_order_witness :
    ((0 : Int) ≤ 3 ∧ (3 : Int) < 0xF0) ∧
    IRQ_IsIRQnBlocked idleState 3 = specIsBlocked idleState 3 :=
  ⟨by decide, isBlocked_decision_order idleState 3 (by decide) (by decide)⟩

end InterruptHandling
